import Mathlib

/-!
Verification of the media-scraping pipeline (src/main.py, src/practice.py).

Each Python function the claims depend on is shallowly embedded as an
executable Lean definition, translated from the source.  External library
calls (urllib.parse.urljoin, the HTTP layer, the Drive upload) are modelled
as explicit parameters or result values.  Strings are treated at the level
of their character lists; Python percent-decoding is modelled bytewise for
the ASCII range (multi-byte UTF-8 re-decoding of urllib.parse.unquote is
not modelled; every concrete input used below is ASCII, where the two
coincide).
-/

namespace Scrape

/-! ### Basic character/string helpers -/

/-- ASCII lower-casing of one character, modelling Python str.lower on the
ASCII range (the URLs and attribute values in this code base are ASCII). -/
def lowerChar (c : Char) : Char :=
  if 'A' ≤ c ∧ c ≤ 'Z' then Char.ofNat (c.toNat + 32) else c

/-- Python s.lower() on the ASCII range. -/
def pyLower (s : String) : String := String.mk (s.data.map lowerChar)

/-- Is `pat` a prefix of `l`? -/
def listIsPre : List Char → List Char → Bool
  | [], _ => true
  | _ :: _, [] => false
  | p :: ps, c :: cs => p = c && listIsPre ps cs

/-- Is `pat` a contiguous substring of `l`?  Models the Python operator
`pat in s` on strings. -/
def listHasSub (pat : List Char) : List Char → Bool
  | [] => listIsPre pat []
  | c :: cs => listIsPre pat (c :: cs) || listHasSub pat cs

/-- Value of one hexadecimal digit, `none` for a non-hex character.
Models the digit set accepted by urllib.parse.unquote. -/
def hexVal (c : Char) : Option Nat :=
  if '0' ≤ c ∧ c ≤ '9' then some (c.toNat - 48)
  else if 'a' ≤ c ∧ c ≤ 'f' then some (c.toNat - 87)
  else if 'A' ≤ c ∧ c ≤ 'F' then some (c.toNat - 55)
  else none

/-! ### URL cleaning (src/main.py line 119, src/practice.py line 200)

The pipeline cleans a discovered URL with
`unquote(url).replace('&amp;', '&')`. -/

/-- Percent-decoding of urllib.parse.unquote, modelled bytewise on the
ASCII range: a '%' followed by two hex digits becomes the corresponding
character; an invalid escape is left as a literal '%' and scanning resumes
at the next character, exactly as unquote leaves undecodable sequences. -/
def unquoteChars : List Char → List Char
  | [] => []
  | '%' :: a :: b :: rest =>
    match hexVal a, hexVal b with
    | some ha, some hb => Char.ofNat (16 * ha + hb) :: unquoteChars rest
    | _, _ => '%' :: unquoteChars (a :: b :: rest)
  | c :: rest => c :: unquoteChars rest

/-- urllib.parse.unquote on a string (ASCII model). -/
def pyUnquote (s : String) : String := String.mk (unquoteChars s.data)

/-- Python str.replace('&amp;', '&'): non-overlapping occurrences are
replaced left to right, and scanning resumes after the replacement. -/
def replaceAmpChars : List Char → List Char
  | '&' :: 'a' :: 'm' :: 'p' :: ';' :: rest => '&' :: replaceAmpChars rest
  | c :: rest => c :: replaceAmpChars rest
  | [] => []

/-- s.replace('&amp;', '&') on a string. -/
def replaceAmp (s : String) : String := String.mk (replaceAmpChars s.data)

/-- The URL normalization applied before deduplication:
`unquote(url).replace('&amp;', '&')` (src/main.py line 119). -/
def cleanUrl (url : String) : String := replaceAmp (pyUnquote url)

/-! Fixed points of the two cleaning passes. -/

theorem unquoteChars_of_no_pct :
    ∀ l : List Char, l.all (fun c => c ≠ '%') = true → unquoteChars l = l := by
  intro l h
  induction l using unquoteChars.induct <;> simp_all [unquoteChars]

theorem replaceAmpChars_of_no_amp :
    ∀ l : List Char, l.all (fun c => c ≠ '&') = true → replaceAmpChars l = l := by
  intro l h
  induction l using replaceAmpChars.induct <;> simp_all [replaceAmpChars]

theorem cleanUrl_fixed (s : String)
    (hp : s.data.all (fun c => c ≠ '%') = true)
    (ha : s.data.all (fun c => c ≠ '&') = true) :
    cleanUrl s = s := by
  unfold cleanUrl pyUnquote replaceAmp
  rw [unquoteChars_of_no_pct s.data hp, replaceAmpChars_of_no_amp s.data ha]

/-- C7: URL normalization is NOT idempotent as claimed: on the valid URL
"https://a.com/%2520" one pass yields "https://a.com/%20" and a second
pass yields "https://a.com/ ", so normalize(normalize(u)) differs from
normalize(u). -/
theorem claim7_counterexample :
    cleanUrl (cleanUrl "https://a.com/%2520") ≠ cleanUrl "https://a.com/%2520" := by
  decide

/-- C7 (amended): normalization is idempotent for every URL whose
once-normalized form contains no percent sign and no ampersand — on such
URLs a second pass of unquote and of the entity replacement is the
identity, so normalize(normalize(u)) = normalize(u). -/
theorem claim7_idempotent_no_pct_amp (u : String)
    (hp : (cleanUrl u).data.all (fun c => c ≠ '%') = true)
    (ha : (cleanUrl u).data.all (fun c => c ≠ '&') = true) :
    cleanUrl (cleanUrl u) = cleanUrl u :=
  cleanUrl_fixed (cleanUrl u) hp ha

/-- C7 witness: the amended idempotence applied at the concrete URL
"https://a.com/img.jpg", whose cleaned form has no percent or ampersand. -/
theorem claim7_witness :
    cleanUrl (cleanUrl "https://a.com/img.jpg") = cleanUrl "https://a.com/img.jpg" :=
  claim7_idempotent_no_pct_amp "https://a.com/img.jpg" (by decide) (by decide)

/-! ### Deduplicating collector (src/main.py lines 116-122)

For each (media_type, url, filename) candidate the loop computes the
cleaned URL, skips the candidate when that cleaned URL was already seen,
and otherwise records it and emits (media_type, cleaned_url, filename). -/

/-- A candidate triple (kind, url, filename) as produced by
get_media_from_submission. -/
abbrev Cand3 := String × String × String

/-- The cleaned form of a candidate: the URL component is replaced by its
cleaned URL, kind and filename are kept (src/main.py lines 119 and 122). -/
def cleanCand (c : Cand3) : Cand3 := (c.1, cleanUrl c.2.1, c.2.2)

/-- The dedup loop of src/main.py lines 116-122 with the `seen` set of
cleaned URLs made explicit as a list. -/
def cleanDedupGo (seen : List String) : List Cand3 → List Cand3
  | [] => []
  | c :: rest =>
    let cu := cleanUrl c.2.1
    if seen.contains cu then cleanDedupGo seen rest
    else (c.1, cu, c.2.2) :: cleanDedupGo (cu :: seen) rest

/-- The "Clean URLs and remove duplicates" pass of get_reddit_search_media
(src/main.py lines 116-124): dedup starting from an empty seen set. -/
def clean_and_dedup (cands : List Cand3) : List Cand3 := cleanDedupGo [] cands

/-- Specification-side collector, written from the spec's words: keep the
first element of every group of equal cleaned URLs, in input order, and
drop the later members of each group. -/
def firstByUrl : List Cand3 → List Cand3
  | [] => []
  | x :: xs => x :: firstByUrl (xs.filter (fun y => y.2.1 != x.2.1))
termination_by l => l.length
decreasing_by
  simp only [List.length_cons]
  exact Nat.lt_succ_of_le (List.length_filter_le _ _)

theorem cleanDedupGo_cons (seen : List String) (c : Cand3) (rest : List Cand3) :
    cleanDedupGo seen (c :: rest)
      = if seen.contains (cleanUrl c.2.1) then cleanDedupGo seen rest
        else (c.1, cleanUrl c.2.1, c.2.2)
          :: cleanDedupGo (cleanUrl c.2.1 :: seen) rest := rfl

theorem firstByUrl_cons (x : Cand3) (xs : List Cand3) :
    firstByUrl (x :: xs) = x :: firstByUrl (xs.filter (fun y => y.2.1 != x.2.1)) := by
  rw [firstByUrl]

theorem cleanDedupGo_eq (l : List Cand3) : ∀ seen : List String,
    cleanDedupGo seen l
      = firstByUrl ((l.map cleanCand).filter (fun y => !(seen.contains y.2.1))) := by
  induction l with
  | nil =>
    intro seen
    simp only [List.map_nil, List.filter_nil]
    rw [show firstByUrl [] = [] from by rw [firstByUrl]]
    rfl
  | cons c rest ih =>
    intro seen
    rw [cleanDedupGo_cons, List.map_cons, List.filter_cons]
    by_cases hseen : seen.contains (cleanUrl c.2.1) = true
    · rw [if_pos hseen]
      have hpred : (!(seen.contains (cleanCand c).2.1)) = false := by
        simp only [cleanCand]
        rw [hseen]
        rfl
      rw [hpred, if_neg (by exact Bool.false_ne_true)]
      exact ih seen
    · have hseen' : seen.contains (cleanUrl c.2.1) = false := by
        simpa using hseen
      rw [if_neg (by rw [hseen']; exact Bool.false_ne_true)]
      have hpred : (!(seen.contains (cleanCand c).2.1)) = true := by
        simp only [cleanCand]
        rw [hseen']
        rfl
      rw [hpred, if_pos rfl, firstByUrl_cons, ih (cleanUrl c.2.1 :: seen)]
      refine congrArg₂ _ rfl (congrArg _ ?_)
      rw [List.filter_filter]
      apply List.filter_congr
      intro y _
      show (!((cleanUrl c.2.1 :: seen).contains y.2.1))
          = ((y.2.1 != (cleanCand c).2.1) && !(seen.contains y.2.1))
      simp only [cleanCand, List.contains_cons, Bool.not_or, bne]

theorem mem_firstByUrl : ∀ (l : List Cand3) (y : Cand3), y ∈ firstByUrl l → y ∈ l := by
  intro l
  induction l using firstByUrl.induct with
  | case1 => intro y h; exact absurd h (by rw [firstByUrl]; simp)
  | case2 x xs ih =>
    intro y h
    rw [firstByUrl_cons] at h
    rcases List.mem_cons.mp h with h1 | h2
    · exact h1 ▸ List.mem_cons_self x xs
    · exact List.mem_cons_of_mem x (List.mem_of_mem_filter (ih y h2))

theorem firstByUrl_pairwise :
    ∀ l : List Cand3, (firstByUrl l).Pairwise (fun a b => a.2.1 ≠ b.2.1) := by
  intro l
  induction l using firstByUrl.induct with
  | case1 => rw [firstByUrl]; exact List.Pairwise.nil
  | case2 x xs ih =>
    rw [firstByUrl_cons]
    refine List.Pairwise.cons ?_ ih
    intro y hy
    have hmem := mem_firstByUrl _ y hy
    have hpred := List.of_mem_filter hmem
    exact fun heq => bne_iff_ne.mp hpred heq.symm

/-- C1: the deduplicating collector of get_reddit_search_media equals the
keep-first-of-each-cleaned-URL-group collector (so every surviving entry is
the cleaned form of the first candidate of its duplicate group, output
order is the input order of those first occurrences, and when one URL
appears under two kinds the first kind wins), and its output contains no
two entries with equal cleaned URL. -/
theorem claim1_dedup_first_seen_wins (cands : List Cand3) :
    clean_and_dedup cands = firstByUrl (cands.map cleanCand)
      ∧ (clean_and_dedup cands).Pairwise (fun a b => a.2.1 ≠ b.2.1) := by
  have h := cleanDedupGo_eq cands []
  have hfil : ((cands.map cleanCand).filter (fun y => !(([] : List String).contains y.2.1)))
      = cands.map cleanCand := by
    apply List.filter_eq_self.mpr
    intro y _
    rfl
  have h0 : clean_and_dedup cands = firstByUrl (cands.map cleanCand) := by
    rw [clean_and_dedup, h, hfil]
  exact ⟨h0, h0 ▸ firstByUrl_pairwise (cands.map cleanCand)⟩

/-! ### HTML media extractor (src/practice.py lines 110-144) -/

/-- Numeric value of a nonempty all-digit character list, else `none`. -/
def digitsVal (l : List Char) : Option Nat :=
  if !l.isEmpty && l.all Char.isDigit then
    some (l.foldl (fun acc c => 10 * acc + (c.toNat - 48)) 0)
  else none

/-- ASCII whitespace as stripped by Python str.strip() / int(). -/
def isSpaceChar (c : Char) : Bool :=
  c == ' ' || c == '\t' || c == '\n' || c == '\r' || c == '\x0b' || c == '\x0c'

/-- Strip leading and trailing whitespace from a character list. -/
def stripWs (l : List Char) : List Char :=
  ((l.dropWhile isSpaceChar).reverse.dropWhile isSpaceChar).reverse

/-- Python int() on a string: surrounding whitespace stripped, an optional
sign, then decimal digits; anything else raises ValueError, modelled as
`none`.  (Python's underscore digit separators are not modelled; no input
in this code base uses them.) -/
def pyInt (s : String) : Option Int :=
  match stripWs s.data with
  | '+' :: ds => (digitsVal ds).map (fun n => (n : Int))
  | '-' :: ds => (digitsVal ds).map (fun n => -(n : Int))
  | ds => (digitsVal ds).map (fun n => (n : Int))

/-- Python str.strip('px'): remove every leading and trailing character
that is 'p' or 'x' (a character set, not a suffix). -/
def stripPx (l : List Char) : List Char :=
  ((l.dropWhile (fun c => c == 'p' || c == 'x')).reverse.dropWhile
    (fun c => c == 'p' || c == 'x')).reverse

/-- The effective dimension string of an img attribute:
`img.get('width', '').strip('px') or '0'` — a missing attribute gives '',
stripping 'p'/'x' may give '', and an empty result falls back to "0". -/
def effDim (attr : Option String) : String :=
  let l := stripPx (attr.getD "").data
  if l.isEmpty then "0" else String.mk l

/-- The size filter of src/practice.py lines 118-124:
`int(width) < 50 or int(height) < 50` inside try/except ValueError.
int(width) is evaluated first; if it raises, the whole check is skipped;
if it is below 50 the element is rejected without looking at the height;
otherwise int(height) decides (a ValueError there also skips the check). -/
def size_reject (width height : Option String) : Bool :=
  match pyInt (effDim width) with
  | none => false
  | some w =>
    if w < 50 then true
    else
      match pyInt (effDim height) with
      | none => false
      | some h => decide (h < 50)

/-- The junk substrings of src/practice.py line 126. -/
def junkWords : List String := ["thumbnail", "icon", "avatar", "emoji", "loading"]

/-- `any(x in src.lower() for x in [...])` (src/practice.py line 126). -/
def junk_reject (src : String) : Bool :=
  junkWords.any (fun w => listHasSub w.data (src.data.map lowerChar))

/-- An img element, restricted to the attributes the extractor reads. -/
structure ImgTag where
  src : Option String
  data_src : Option String
  data_original : Option String
  width : Option String
  height : Option String
deriving DecidableEq

/-- A video/source element, restricted to the attributes read. -/
structure VidTag where
  src : Option String
  data_src : Option String
deriving DecidableEq

/-- Python `a or b or ...` over attribute lookups followed by the `if src:`
truthiness test: the first present and nonempty value, if any. -/
def firstTruthy : List (Option String) → Option String
  | [] => none
  | none :: rest => firstTruthy rest
  | some s :: rest => if s = "" then firstTruthy rest else some s

/-- Python s.startswith(pre), computed on the character lists. -/
def strStarts (pre s : String) : Bool := listIsPre pre.data s.data

/-- URL resolution of src/practice.py lines 127-130 and 138-141.  The
external urllib.parse.urljoin is passed in as `ujoin`; it is only reached
when the source has no scheme and is not protocol-relative. -/
def resolve_url (ujoin : String → String → String) (base src : String) : String :=
  if strStarts "//" src then "https:" ++ src
  else if strStarts "http://" src || strStarts "https://" src then src
  else ujoin base src

/-- Python src.split('?')[0]: the characters before the first '?'. -/
def takeUntilQ (s : String) : String :=
  String.mk (s.data.takeWhile (fun c => c != '?'))

/-- Processing of one img element (src/practice.py lines 115-132): source
attribute lookup, size filter, junk filter, resolution, query strip. -/
def img_candidate (ujoin : String → String → String) (base : String)
    (t : ImgTag) : Option (String × String) :=
  match firstTruthy [t.src, t.data_src, t.data_original] with
  | none => none
  | some src =>
    if size_reject t.width t.height then none
    else if junk_reject src then none
    else some ("image", takeUntilQ (resolve_url ujoin base src))

/-- Processing of one video/source element (src/practice.py lines
135-142): no size filter, no junk filter, and no query strip. -/
def vid_candidate (ujoin : String → String → String) (base : String)
    (t : VidTag) : Option (String × String) :=
  match firstTruthy [t.src, t.data_src] with
  | none => none
  | some src => some ("video", resolve_url ujoin base src)

/-- extract_media_from_html (src/practice.py lines 110-144): all image
candidates, then all video candidates. -/
def extract_media_from_html (ujoin : String → String → String) (base : String)
    (imgs : List ImgTag) (vids : List VidTag) : List (String × String) :=
  imgs.filterMap (img_candidate ujoin base) ++ vids.filterMap (vid_candidate ujoin base)

/-- The size-rejection condition expressed as a logical formula: the
effective width string parses and is below 50, or it parses to at least 50
and the effective height string parses and is below 50. -/
def sizeRejectCond (width height : Option String) : Prop :=
  ∃ w : Int, pyInt (effDim width) = some w ∧
    (w < 50 ∨ (50 ≤ w ∧ ∃ h : Int, pyInt (effDim height) = some h ∧ h < 50))

theorem size_reject_iff (width height : Option String) :
    size_reject width height = true ↔ sizeRejectCond width height := by
  unfold size_reject sizeRejectCond
  cases hw : pyInt (effDim width) with
  | none => simp [hw]
  | some w =>
    by_cases hlt : w < 50
    · simp [hw, hlt]
    · cases hh : pyInt (effDim height) with
      | none => simp [hw, hh, hlt]
      | some h => simp [hw, hh, hlt, Int.not_lt.mp hlt]

/-- C2 counterexample: an img element with a non-empty source, a junk-free
URL, and NO width or height attributes is rejected — the missing
attributes default to the string "0", which parses as 0 < 50 — whereas the
claim states that an element with absent dimensions is not rejected on the
size basis. -/
def c2img : ImgTag :=
  { src := some "http://a.com/photo.jpg", data_src := none,
    data_original := none, width := none, height := none }

theorem claim2_counterexample :
    firstTruthy [c2img.src, c2img.data_src, c2img.data_original]
        = some "http://a.com/photo.jpg"
      ∧ junk_reject "http://a.com/photo.jpg" = false
      ∧ img_candidate (fun _ s => s) "http://b.com" c2img = none := by
  decide

/-- C2 (amended): for every img element with a non-empty source, the
extractor drops it on the size basis exactly when the effective width
string (attribute value with 'p'/'x' stripped from both ends, an absent or
empty attribute defaulting to "0") parses as an integer below 50, or
parses as at least 50 while the effective height string (same treatment)
parses below 50; if the width string is unparsable, or parses to at least
50 with the height string unparsable, no size rejection happens and the
element is subject only to the junk-substring filter. -/
theorem img_candidate_unfold (ujoin : String → String → String) (base : String)
    (t : ImgTag) (src : String)
    (hsrc : firstTruthy [t.src, t.data_src, t.data_original] = some src) :
    img_candidate ujoin base t
      = if size_reject t.width t.height then none
        else if junk_reject src then none
        else some ("image", takeUntilQ (resolve_url ujoin base src)) := by
  unfold img_candidate
  rw [hsrc]

theorem vid_candidate_unfold (ujoin : String → String → String) (base : String)
    (t : VidTag) (src : String)
    (hsrc : firstTruthy [t.src, t.data_src] = some src) :
    vid_candidate ujoin base t = some ("video", resolve_url ujoin base src) := by
  unfold vid_candidate
  rw [hsrc]

theorem claim2_size_filter (ujoin : String → String → String) (base : String)
    (t : ImgTag) (src : String)
    (hsrc : firstTruthy [t.src, t.data_src, t.data_original] = some src)
    (hjunk : junk_reject src = false) :
    (img_candidate ujoin base t = none ↔ sizeRejectCond t.width t.height)
      ∧ (¬ sizeRejectCond t.width t.height →
          img_candidate ujoin base t
            = some ("image", takeUntilQ (resolve_url ujoin base src))) := by
  rw [img_candidate_unfold ujoin base t src hsrc]
  by_cases hsz : size_reject t.width t.height = true
  · have hcond := (size_reject_iff t.width t.height).mp hsz
    rw [if_pos hsz]
    exact ⟨⟨fun _ => hcond, fun _ => rfl⟩, fun hn => absurd hcond hn⟩
  · have hcond : ¬ sizeRejectCond t.width t.height :=
      fun hc => hsz ((size_reject_iff t.width t.height).mpr hc)
    rw [if_neg hsz, if_neg (by rw [hjunk]; exact Bool.false_ne_true)]
    constructor
    · constructor
      · intro h; exact absurd h (by simp)
      · intro hc; exact absurd hc hcond
    · intro _; rfl

/-- C2 witness: the amended theorem applied to a concrete img with
width "30" and height "200": the width parses below 50, so the element is
rejected. -/
theorem claim2_witness :
    img_candidate (fun _ s => s) "http://b.com"
        { src := some "http://a.com/big.jpg", data_src := none,
          data_original := none, width := some "30", height := some "200" }
      = none := by
  have h := claim2_size_filter (fun _ s => s) "http://b.com"
    { src := some "http://a.com/big.jpg", data_src := none,
      data_original := none, width := some "30", height := some "200" }
    "http://a.com/big.jpg" (by decide) (by decide)
  exact h.1.mpr ⟨30, by decide, Or.inl (by decide)⟩

/-- C3 counterexample: the video branch of the HTML extractor performs no
query stripping, so a video source with a query string is emitted with the
query intact, violating the canonical-URL invariant claimed for every
emitted kind. -/
def c3vid : VidTag := { src := some "https://a.com/v.mp4?x=1", data_src := none }

theorem claim3_counterexample :
    ("video", "https://a.com/v.mp4?x=1")
        ∈ extract_media_from_html (fun _ s => s) "https://a.com" [] [c3vid]
      ∧ '?' ∈ ("https://a.com/v.mp4?x=1" : String).data := by
  decide

theorem takeUntilQ_no_query (s : String) : '?' ∉ (takeUntilQ s).data := by
  unfold takeUntilQ
  intro hmem
  have := List.mem_takeWhile_imp hmem
  simp at this

/-- C3 (amended): every image candidate emitted by the HTML media
extractor has a query-free URL (the source is cut at the first '?'); the
claimed invariant does not extend to video candidates, which keep their
query string, and the HTML extractor performs no entity or percent
decoding. -/
theorem claim3_image_query_free (ujoin : String → String → String)
    (base : String) (imgs : List ImgTag) (vids : List VidTag) (u : String)
    (h : ("image", u) ∈ extract_media_from_html ujoin base imgs vids) :
    '?' ∉ u.data := by
  unfold extract_media_from_html at h
  rcases List.mem_append.mp h with h1 | h2
  · rcases List.mem_filterMap.mp h1 with ⟨t, _, ht⟩
    rcases hs : firstTruthy [t.src, t.data_src, t.data_original] with _ | src
    · unfold img_candidate at ht
      rw [hs] at ht
      exact absurd ht (by simp)
    · rw [img_candidate_unfold ujoin base t src hs] at ht
      by_cases hb1 : size_reject t.width t.height = true
      · rw [if_pos hb1] at ht; exact absurd ht (by simp)
      · rw [if_neg hb1] at ht
        by_cases hb2 : junk_reject src = true
        · rw [if_pos hb2] at ht; exact absurd ht (by simp)
        · rw [if_neg hb2] at ht
          injection ht with ht
          injection ht with _ htu
          rw [← htu]
          exact takeUntilQ_no_query _
  · rcases List.mem_filterMap.mp h2 with ⟨t, _, ht⟩
    rcases hs : firstTruthy [t.src, t.data_src] with _ | src
    · unfold vid_candidate at ht
      rw [hs] at ht
      exact absurd ht (by simp)
    · rw [vid_candidate_unfold ujoin base t src hs] at ht
      injection ht with ht
      injection ht with hkind _
      exact absurd hkind (by decide)

/-- C3 witness: the amended theorem applied to a concrete img whose source
carries a query string; the emitted image URL is query-free. -/
theorem claim3_witness :
    '?' ∉ ("https://a.com/pic.jpg" : String).data :=
  claim3_image_query_free (fun _ s => s) "https://a.com"
    [{ src := some "https://a.com/pic.jpg?w=3", data_src := none,
       data_original := none, width := some "100", height := some "100" }]
    [] "https://a.com/pic.jpg" (by decide)

/-! ### Structured-post media extractor (src/main.py lines 47-84)

get_media_from_submission walks a PRAW submission's fields inside one
try/except; any exception during field access makes the function return
the candidates accumulated so far.  Field accesses that can raise are
modelled with `PyRes`. -/

/-- A Python exception raised during a field access. -/
inductive PyErr
  | keyError
  | attrError
  | other
deriving DecidableEq

/-- A Python expression over a post that either yields a value or raises. -/
inductive PyRes (α : Type)
  | ok (a : α)
  | err (e : PyErr)
deriving DecidableEq

/-- One media_metadata entry: status models metadata['status'], e models
metadata['e'], s_u models metadata['s']['u'] (each access can raise). -/
structure MetaEntry where
  status : PyRes String
  e : PyRes String
  s_u : PyRes String
deriving DecidableEq

/-- Association-list lookup, modelling Python dict indexing. -/
def slookup {β : Type} (k : String) : List (String × β) → Option β
  | [] => none
  | p :: rest => if p.1 = k then some p.2 else slookup k rest

/-- A PRAW submission, restricted to the fields get_media_from_submission
reads.  gallery_data is present iff hasattr(submission, 'gallery_data');
its value models submission.gallery_data['items'], itemwise
item['media_id'].  media_metadata is the dict indexed by media id
(a missing id raises KeyError).  url is present iff hasattr(submission,
'url').  is_video is a plain attribute access that may raise.  media is
present iff hasattr(submission, 'media'); its value models
submission.media['reddit_video']['fallback_url'].  preview is present iff
hasattr(submission, 'preview'); the inner option models
preview['images'][0]['source']['url'] whose KeyError/IndexError the code
swallows with an inner try (modelled by the inner none). -/
structure Submission where
  id : String
  gallery_data : Option (PyRes (List (PyRes String)))
  media_metadata : List (String × MetaEntry)
  url : Option String
  is_video : PyRes Bool
  media : Option (PyRes String)
  preview : Option (Option String)
deriving DecidableEq

/-- The gallery loop of src/main.py lines 52-59, with the accumulated
candidate list explicit: on the first exception it stops, reporting the
candidates gathered so far together with the exception. -/
def galleryLoop (sid : String) (mm : List (String × MetaEntry)) :
    List (PyRes String) → List Cand3 → List Cand3 × Option PyErr
  | [], acc => (acc, none)
  | PyRes.err e :: _, acc => (acc, some e)
  | PyRes.ok mid :: rest, acc =>
    match slookup mid mm with
    | none => (acc, some PyErr.keyError)
    | some ent =>
      match ent.status with
      | PyRes.err e => (acc, some e)
      | PyRes.ok st =>
        if st = "valid" then
          match ent.e with
          | PyRes.err e => (acc, some e)
          | PyRes.ok ty =>
            if ty = "Image" then
              match ent.s_u with
              | PyRes.err e => (acc, some e)
              | PyRes.ok u =>
                galleryLoop sid mm rest
                  (acc ++ [("image", u, "gallery_" ++ sid ++ "_" ++ mid ++ ".jpg")])
            else galleryLoop sid mm rest acc
        else galleryLoop sid mm rest acc

/-- The image extensions of src/main.py line 64. -/
def imgExts : List String := [".jpg", ".jpeg", ".png", ".gif", ".webp"]

/-- Python s.endswith(suf), computed on the reversed character lists. -/
def strEnds (suf s : String) : Bool := listIsPre suf.data.reverse s.data.reverse

/-- `any(url.lower().endswith(ext) for ext in [...])` (src/main.py line 64). -/
def has_image_ext (u : String) : Bool := imgExts.any (fun e => strEnds e (pyLower u))

/-- Python s.split(sep) for a one-character separator, on the character
list: split at every occurrence, keeping empty segments. -/
def splitOnChar (sep : Char) : List Char → List (List Char)
  | [] => [[]]
  | c :: rest =>
    match splitOnChar sep rest with
    | [] => [[]]
    | g :: gs => if c = sep then [] :: g :: gs else (c :: g) :: gs

/-- `url.split('.')[-1]` (src/main.py line 65): the text after the last
dot, or the whole string when it has no dot. -/
def last_dot_seg (u : String) : String :=
  String.mk ((splitOnChar '.' u.data).getLastD [])

/-- Steps 1-2 of get_media_from_submission (src/main.py lines 52-66): the
gallery branch, or — only when the submission has no gallery_data — the
direct-link branch (if/elif in the source). -/
def gallery_or_direct (s : Submission) : List Cand3 × Option PyErr :=
  match s.gallery_data with
  | some (PyRes.err e) => ([], some e)
  | some (PyRes.ok items) => galleryLoop s.id s.media_metadata items []
  | none =>
    match s.url with
    | some u =>
      if has_image_ext u then
        ([("image", u, s.id ++ "_image." ++ last_dot_seg u)], none)
      else ([], none)
    | none => ([], none)

/-- Steps 3-4 of get_media_from_submission (src/main.py lines 68-79): the
hosted-video branch, or — only when is_video is false or media is absent —
the preview branch (if/elif in the source). -/
def video_preview_part (s : Submission) (acc : List Cand3) :
    List Cand3 × Option PyErr :=
  match s.is_video with
  | PyRes.err e => (acc, some e)
  | PyRes.ok b =>
    match b, s.media with
    | true, some (PyRes.err e) => (acc, some e)
    | true, some (PyRes.ok vurl) =>
      (acc ++ [("video", vurl, s.id ++ "_video.mp4")], none)
    | _, _ =>
      match s.preview with
      | some (some purl) => (acc ++ [("image", purl, s.id ++ "_preview.jpg")], none)
      | _ => (acc, none)

/-- get_media_from_submission up to the outer except: the candidate list
together with the first uncaught-inside exception, if any (src/main.py
lines 47-84). -/
def extract_core (s : Submission) : List Cand3 × Option PyErr :=
  match gallery_or_direct s with
  | (acc, some e) => (acc, some e)
  | (acc, none) => video_preview_part s acc

/-- get_media_from_submission (src/main.py lines 47-84): the outer
try/except returns the accumulated candidates whether or not an exception
occurred. -/
def get_media_from_submission (s : Submission) : List Cand3 := (extract_core s).1

/-- The multi-post scan (src/main.py line 112 and src/practice.py lines
190-235): each post's candidates are appended in order. -/
def scan_posts (posts : List Submission) : List Cand3 :=
  (posts.map get_media_from_submission).flatten

/-- C4: a failing post never aborts the scan — the scan over
pre ++ failing ++ post equals the scan of pre, then whatever the failing
post yielded before its exception, then the scan of post. -/
theorem claim4_partial_failure (pre : List Submission) (s : Submission)
    (post : List Submission) (hfail : (extract_core s).2.isSome = true) :
    scan_posts (pre ++ s :: post)
      = scan_posts pre ++ (extract_core s).1 ++ scan_posts post := by
  unfold scan_posts get_media_from_submission
  rw [List.map_append, List.map_cons, List.flatten_append, List.flatten_cons,
    List.append_assoc]

def c4post1 : Submission :=
  { id := "p1", gallery_data := none, media_metadata := [],
    url := some "http://a.com/a.jpg", is_video := PyRes.ok false,
    media := none, preview := none }

/-- A post whose gallery raises a KeyError on its second item, after its
first item already yielded a candidate. -/
def c4post2 : Submission :=
  { id := "p2",
    gallery_data := some (PyRes.ok [PyRes.ok "m1", PyRes.err PyErr.keyError]),
    media_metadata :=
      [("m1", { status := PyRes.ok "valid", e := PyRes.ok "Image",
                s_u := PyRes.ok "http://i.com/1.jpg" })],
    url := none, is_video := PyRes.ok false, media := none, preview := none }

def c4post3 : Submission :=
  { id := "p3", gallery_data := none, media_metadata := [],
    url := some "http://a.com/c.png", is_video := PyRes.ok false,
    media := none, preview := none }

/-- C4 witness: the middle of three posts raises during its gallery walk,
and the scan still contains post 1's and post 3's candidates plus the
candidate post 2 yielded before failing. -/
theorem claim4_witness :
    (extract_core c4post2).2.isSome = true
      ∧ scan_posts [c4post1, c4post2, c4post3]
          = scan_posts [c4post1] ++ (extract_core c4post2).1
              ++ scan_posts [c4post3] :=
  ⟨by decide, claim4_partial_failure [c4post1] c4post2 [c4post3] (by decide)⟩

/-- Well-formedness of one gallery item: its media_id access succeeds, the
id is present in media_metadata, and the entry fields the code would read
do not raise. -/
def gallery_item_ok (mm : List (String × MetaEntry)) : PyRes String → Bool
  | PyRes.err _ => false
  | PyRes.ok mid =>
    match slookup mid mm with
    | none => false
    | some ent =>
      match ent.status with
      | PyRes.err _ => false
      | PyRes.ok st =>
        if st = "valid" then
          match ent.e with
          | PyRes.err _ => false
          | PyRes.ok ty =>
            if ty = "Image" then
              match ent.s_u with
              | PyRes.err _ => false
              | PyRes.ok _ => true
            else true
        else true

/-- Specification-side gallery output for one item, following the spec's
words: exactly one Image candidate when the entry's status is "valid" and
its type is "Image" (with the entry's source URL and filename
gallery_postid_mediaid.jpg), none for any other status or type. -/
def gallery_expected_item (sid : String) (mm : List (String × MetaEntry)) :
    PyRes String → Option Cand3
  | PyRes.err _ => none
  | PyRes.ok mid =>
    match slookup mid mm with
    | none => none
    | some ent =>
      match ent.status with
      | PyRes.err _ => none
      | PyRes.ok st =>
        if st = "valid" then
          match ent.e with
          | PyRes.err _ => none
          | PyRes.ok ty =>
            if ty = "Image" then
              match ent.s_u with
              | PyRes.err _ => none
              | PyRes.ok u =>
                some ("image", u, "gallery_" ++ sid ++ "_" ++ mid ++ ".jpg")
            else none
        else none

/-- Specification-side gallery output over all items. -/
def gallery_expected (sid : String) (mm : List (String × MetaEntry))
    (items : List (PyRes String)) : List Cand3 :=
  items.filterMap (gallery_expected_item sid mm)

theorem galleryLoop_ok (sid : String) (mm : List (String × MetaEntry)) :
    ∀ (items : List (PyRes String)) (acc : List Cand3),
      items.all (gallery_item_ok mm) = true →
      galleryLoop sid mm items acc = (acc ++ gallery_expected sid mm items, none) := by
  intro items
  induction items with
  | nil =>
    intro acc _
    simp [galleryLoop, gallery_expected]
  | cons it rest ih =>
    intro acc hall
    simp only [List.all_cons, Bool.and_eq_true] at hall
    obtain ⟨hit, hrest⟩ := hall
    cases it with
    | err e => simp [gallery_item_ok] at hit
    | ok mid =>
      cases hlk : slookup mid mm with
      | none => simp [gallery_item_ok, hlk] at hit
      | some ent =>
        cases hst : ent.status with
        | err e => simp [gallery_item_ok, hlk, hst] at hit
        | ok st =>
          by_cases hv : st = "valid"
          · subst hv
            cases he : ent.e with
            | err e => simp [gallery_item_ok, hlk, hst, he] at hit
            | ok ty =>
              by_cases hty : ty = "Image"
              · subst hty
                cases hsu : ent.s_u with
                | err e => simp [gallery_item_ok, hlk, hst, he, hsu] at hit
                | ok u =>
                  rw [show galleryLoop sid mm (PyRes.ok mid :: rest) acc
                        = galleryLoop sid mm rest
                            (acc ++ [("image", u,
                              "gallery_" ++ sid ++ "_" ++ mid ++ ".jpg")]) by
                    simp [galleryLoop, hlk, hst, he, hsu]]
                  rw [ih _ hrest]
                  simp [gallery_expected, gallery_expected_item, hlk, hst, he, hsu]
              · rw [show galleryLoop sid mm (PyRes.ok mid :: rest) acc
                      = galleryLoop sid mm rest acc by
                  simp [galleryLoop, hlk, hst, he, hty]]
                rw [ih _ hrest]
                simp [gallery_expected, gallery_expected_item, hlk, hst, he, hty]
          · rw [show galleryLoop sid mm (PyRes.ok mid :: rest) acc
                  = galleryLoop sid mm rest acc by
              simp [galleryLoop, hlk, hst, hv]]
            rw [ih _ hrest]
            simp [gallery_expected, gallery_expected_item, hlk, hst, hv]

theorem video_preview_none (s : Submission) (acc : List Cand3)
    (hv : s.is_video = PyRes.ok false) (hp : s.preview = none) :
    video_preview_part s acc = (acc, none) := by
  unfold video_preview_part
  rw [hv, hp]

/-- C5: for a post carrying gallery item metadata (with every gallery item
resolvable and its entry's relevant fields readable, the post not flagged
video and without preview data), the extractor returns exactly one Image
candidate for each gallery item whose media-metadata entry has status
"valid" and type "Image" — with filename gallery_postid_mediaid.jpg and
the entry's source URL — and zero candidates for every other gallery
item. -/
theorem claim5_gallery_exact (s : Submission) (items : List (PyRes String))
    (hg : s.gallery_data = some (PyRes.ok items))
    (hok : items.all (gallery_item_ok s.media_metadata) = true)
    (hv : s.is_video = PyRes.ok false) (hp : s.preview = none) :
    get_media_from_submission s = gallery_expected s.id s.media_metadata items := by
  unfold get_media_from_submission extract_core gallery_or_direct
  simp only [hg]
  rw [galleryLoop_ok s.id s.media_metadata items [] hok]
  simp only [List.nil_append]
  rw [video_preview_none s _ hv hp]

/-- C5 witness: a gallery with three items — valid Image, valid non-Image,
invalid — yields exactly the one candidate of the valid Image item. -/
def c5post : Submission :=
  { id := "g1",
    gallery_data := some (PyRes.ok [PyRes.ok "m1", PyRes.ok "m2", PyRes.ok "m3"]),
    media_metadata :=
      [("m1", { status := PyRes.ok "valid", e := PyRes.ok "Image",
                s_u := PyRes.ok "http://i.com/a.jpg" }),
       ("m2", { status := PyRes.ok "valid", e := PyRes.ok "AnimatedImage",
                s_u := PyRes.ok "http://i.com/b.gif" }),
       ("m3", { status := PyRes.ok "failed", e := PyRes.ok "Image",
                s_u := PyRes.ok "http://i.com/c.jpg" })],
    url := none, is_video := PyRes.ok false, media := none, preview := none }

theorem claim5_witness :
    get_media_from_submission c5post
      = [("image", "http://i.com/a.jpg", "gallery_g1_m1.jpg")] := by
  have h := claim5_gallery_exact c5post
    [PyRes.ok "m1", PyRes.ok "m2", PyRes.ok "m3"]
    (by decide) (by decide) (by decide) (by decide)
  rw [h]
  decide

/-- C6 counterexample: a post that both carries gallery metadata and has a
primary link ending in .jpg yields only its gallery candidate — the
direct-link candidate p9_image.jpg demanded by the claim is absent,
because gallery and direct link are if/elif in the source. -/
def c6post : Submission :=
  { id := "p9",
    gallery_data := some (PyRes.ok [PyRes.ok "m1"]),
    media_metadata :=
      [("m1", { status := PyRes.ok "valid", e := PyRes.ok "Image",
                s_u := PyRes.ok "http://i.com/1.jpg" })],
    url := some "http://a.com/p.jpg",
    is_video := PyRes.ok false, media := none, preview := none }

theorem claim6_counterexample :
    c6post.gallery_data.isSome = true
      ∧ has_image_ext "http://a.com/p.jpg" = true
      ∧ c6post.url = some "http://a.com/p.jpg"
      ∧ ("image", "http://a.com/p.jpg", "p9_image.jpg")
          ∉ get_media_from_submission c6post := by
  decide

/-- C6 (amended): the gallery and direct-link branches are mutually
exclusive (if/elif), not combinable: when a post carries gallery item
metadata its output does not depend on the primary link at all, so it
never also emits a direct-link candidate.  (The video branch can still
combine with either; steps 3 and 4 remain mutually exclusive.) -/
theorem claim6_gallery_suppresses_direct (s : Submission) (u : Option String)
    (hg : s.gallery_data.isSome = true) :
    get_media_from_submission s = get_media_from_submission { s with url := u } := by
  cases s with
  | mk sid gd mm url vid med prev =>
    cases gd with
    | none => simp at hg
    | some g => cases g <;> rfl

/-- C6 witness: the amended theorem at the concrete gallery post — its
output is unchanged when its primary link is replaced. -/
theorem claim6_witness :
    get_media_from_submission c6post
      = get_media_from_submission { c6post with url := some "http://a.com/other.png" } :=
  claim6_gallery_suppresses_direct c6post (some "http://a.com/other.png") (by decide)

/-! ### extract_search_query (src/main.py lines 41-45)

`parse_qs(urlparse(url).query).get('q', [None])[0]`. -/

/-- The query component as urllib.parse.urlparse extracts it: the fragment
(everything from the first '#') is split off first, and the query is then
everything after the first '?' of what remains (empty when there is no
'?'). -/
def urlQuery (url : String) : String :=
  let beforeFrag := url.data.takeWhile (fun c => c != '#')
  String.mk ((beforeFrag.dropWhile (fun c => c != '?')).drop 1)

/-- The per-field decoding of urllib.parse.parse_qsl:
replace('+', ' ') then unquote. -/
def unquote_plus (s : String) : String :=
  pyUnquote (String.mk (s.data.map (fun c => if c = '+' then ' ' else c)))

/-- One field of the query string, as parse_qsl treats it with default
arguments: an empty field is skipped; a field without '=' is skipped; a
field whose value part (after the first '=') is empty is skipped
(keep_blank_values is False); otherwise name and value are decoded with
unquote_plus. -/
def qsl_pair (field : List Char) : Option (String × String) :=
  if field.isEmpty then none
  else if field.contains '=' then
    let value := (field.dropWhile (fun c => c != '=')).drop 1
    if value.isEmpty then none
    else some (unquote_plus (String.mk (field.takeWhile (fun c => c != '='))),
               unquote_plus (String.mk value))
  else none

/-- urllib.parse.parse_qsl with default arguments: split the query on '&'
and keep the decodable name/value fields in order. -/
def parse_qsl (qs : String) : List (String × String) :=
  (splitOnChar '&' qs.data).filterMap qsl_pair

/-- One step of dict building in parse_qs: append the value to the list of
an existing key, or add a new key at the end (dicts preserve insertion
order). -/
def addPair : List (String × List String) → String → String → List (String × List String)
  | [], k, v => [(k, [v])]
  | p :: rest, k, v =>
    if p.1 = k then (p.1, p.2 ++ [v]) :: rest
    else p :: addPair rest k v

/-- urllib.parse.parse_qs: the parsed fields grouped into an
insertion-ordered dict of value lists. -/
def parse_qs (qs : String) : List (String × List String) :=
  (parse_qsl qs).foldl (fun d p => addPair d p.1 p.2) []

/-- extract_search_query (src/main.py lines 41-45):
`parse_qs(urlparse(url).query).get('q', [None])[0]` — the first value of
the 'q' parameter, or none when the dict has no 'q' key. -/
def extract_search_query (url : String) : Option String :=
  match slookup "q" (parse_qs (urlQuery url)) with
  | some vs => vs.head?
  | none => none

/-- The values associated with key k among the parsed fields, in order. -/
def valsOf (k : String) : List (String × String) → List String
  | [] => []
  | p :: rest => if p.1 = k then p.2 :: valsOf k rest else valsOf k rest

theorem valsOf_head_eq_slookup (k : String) :
    ∀ pairs : List (String × String), (valsOf k pairs).head? = slookup k pairs := by
  intro pairs
  induction pairs with
  | nil => rfl
  | cons p rest ih =>
    by_cases hk : p.1 = k
    · simp [valsOf, slookup, hk]
    · simp [valsOf, slookup, hk, ih]

theorem slookup_addPair_ne (k k' v : String) (hne : k ≠ k') :
    ∀ d : List (String × List String), slookup k (addPair d k' v) = slookup k d := by
  have hne' : ¬ k' = k := fun h => hne h.symm
  intro d
  induction d with
  | nil => simp [addPair, slookup, hne']
  | cons p rest ih =>
    by_cases hp : p.1 = k'
    · have hpk : ¬ p.1 = k := fun h => hne (h.symm.trans hp)
      simp [addPair, slookup, hp, hpk, hne']
    · simp [addPair, slookup, hp, ih]

theorem slookup_addPair_eq (k v : String) :
    ∀ d : List (String × List String),
      slookup k (addPair d k v)
        = some ((match slookup k d with | some vs => vs | none => []) ++ [v]) := by
  intro d
  induction d with
  | nil => simp [addPair, slookup]
  | cons p rest ih =>
    by_cases hp : p.1 = k
    · simp [addPair, slookup, hp]
    · simp [addPair, slookup, hp, ih]

theorem parse_qs_invariant (k : String) :
    ∀ (pairs : List (String × String)) (d : List (String × List String)),
      slookup k (pairs.foldl (fun d p => addPair d p.1 p.2) d)
        = match slookup k d with
          | some vs => some (vs ++ valsOf k pairs)
          | none =>
            match valsOf k pairs with
            | [] => none
            | vs => some vs := by
  intro pairs
  induction pairs with
  | nil =>
    intro d
    cases hd : slookup k d with
    | none => simp [valsOf, hd]
    | some vs => simp [valsOf, hd]
  | cons p rest ih =>
    intro d
    rw [List.foldl_cons, ih (addPair d p.1 p.2)]
    by_cases hpk : p.1 = k
    · subst hpk
      rw [slookup_addPair_eq p.1 p.2 d]
      cases hd : slookup p.1 d with
      | none => simp [valsOf]
      | some vs => simp [valsOf]
    · rw [slookup_addPair_ne k p.1 p.2 (fun h => hpk h.symm) d]
      cases hd : slookup k d with
      | none => simp [valsOf, hpk]
      | some vs => simp [valsOf, hpk]

/-- C10: extract_search_query returns exactly the first 'q' field of the
parsed query string — the value of the URL's 'q' parameter when the parse
produces one, and none (with no exception: the function is total) when
the URL has no query component or the query has no decodable 'q' field;
in particular a URL without a query component always yields none. -/
theorem claim10_extract_search_query (url : String) :
    extract_search_query url = slookup "q" (parse_qsl (urlQuery url))
      ∧ (urlQuery url = "" → extract_search_query url = none) := by
  have hmain : extract_search_query url = slookup "q" (parse_qsl (urlQuery url)) := by
    unfold extract_search_query parse_qs
    rw [parse_qs_invariant "q" (parse_qsl (urlQuery url)) []]
    rw [show slookup "q" ([] : List (String × List String)) = none from rfl]
    rw [← valsOf_head_eq_slookup "q" (parse_qsl (urlQuery url))]
    cases hv : valsOf "q" (parse_qsl (urlQuery url)) with
    | nil => rfl
    | cons a rest => rfl
  refine ⟨hmain, fun hq => ?_⟩
  rw [hmain, hq]
  rfl

/-- C10 witness: the characterization applied at a concrete search URL,
and the no-query consequence applied at a concrete URL without a query. -/
theorem claim10_witness :
    extract_search_query "https://www.reddit.com/search?q=dogs"
        = slookup "q" (parse_qsl (urlQuery "https://www.reddit.com/search?q=dogs"))
      ∧ extract_search_query "https://a.com/page" = none :=
  ⟨(claim10_extract_search_query "https://www.reddit.com/search?q=dogs").1,
   (claim10_extract_search_query "https://a.com/page").2 (by decide)⟩

example : extract_search_query "https://www.reddit.com/search/?q=cats&sort=new"
    = some "cats" := by decide

example : extract_search_query "https://www.reddit.com/search/" = none := by decide

example : extract_search_query "https://www.reddit.com/search/?q=a+b%21"
    = some "a b!" := by decide

example : extract_search_query "https://r.com/p?sort=new&q=first&q=second"
    = some "first" := by decide

/-! ### Per-item download, upload and cleanup
(src/practice.py lines 92-108 and 366-385) -/

/-- An HTTP response as the retriever sees it: status code and the chunk
stream of iter_content, where a chunk either arrives or the read raises. -/
structure HttpResp where
  status : Nat
  chunks : List (PyRes (List Nat))
deriving DecidableEq

/-- The scratch directory contents: filename to byte content. -/
abbrev FS := List (String × List Nat)

/-- Create or overwrite a file. -/
def fsSet (fs : FS) (name : String) (content : List Nat) : FS :=
  match fs with
  | [] => [(name, content)]
  | p :: rest =>
    if p.1 = name then (name, content) :: rest else p :: fsSet rest name content

/-- os.remove. -/
def fsErase (fs : FS) (name : String) : FS := fs.filter (fun p => p.1 != name)

/-- Does the file exist? -/
def hasFile (fs : FS) (name : String) : Bool := (slookup name fs).isSome

/-- The chunked write loop of download_media (src/practice.py lines
101-104): open() creates the file; each arriving chunk is appended (the
`if chunk:` test only skips empty chunks, which append nothing); a read
that raises leaves the partially written file in place and reports
failure. -/
def write_chunks (fs : FS) (path : String) (buf : List Nat) :
    List (PyRes (List Nat)) → FS × Bool
  | [] => (fsSet fs path buf, true)
  | PyRes.err _ :: _ => (fsSet fs path buf, false)
  | PyRes.ok c :: rest => write_chunks fs path (buf ++ c) rest

/-- download_media (src/practice.py lines 92-108): on HTTP 200 stream the
body into downloads/filename and return the path; on any other status
return None without creating a file; an exception during the body read is
caught by the function's except, which returns None but leaves the
partially written file behind. -/
def download_media (fs : FS) (resp : HttpResp) (filename : String) :
    FS × Option String :=
  if resp.status = 200 then
    match write_chunks fs ("downloads/" ++ filename) [] resp.chunks with
    | (fs', true) => (fs', some ("downloads/" ++ filename))
    | (fs', false) => (fs', none)
  else (fs, none)

/-- One iteration of the save-to-Drive loop (src/practice.py lines
372-383): download; if a path came back, call upload_to_drive (whose own
failure is swallowed inside it and only affects the reported link, passed
in here from the external Drive collaborator) and then os.remove the file
unconditionally. -/
def process_item (fs : FS) (resp : HttpResp) (filename : String)
    (upl : Option String) : FS :=
  match download_media fs resp filename with
  | (fs', some p) =>
    match upl with
    | _ => fsErase fs' p
  | (fs', none) => fs'

/-- C9 counterexample: a 200 response whose body read raises after the
first chunk leaves the partially written file downloads/f.jpg behind —
download_media returns None, so the main loop never removes it — contrary
to the claim that every failure path of an item removes its scratch
file. -/
def c9resp : HttpResp :=
  { status := 200, chunks := [PyRes.ok [1, 2, 3], PyRes.err PyErr.other] }

theorem claim9_counterexample :
    process_item [] c9resp "f.jpg" none = [("downloads/f.jpg", [1, 2, 3])]
      ∧ hasFile (process_item [] c9resp "f.jpg" none) "downloads/f.jpg" = true := by
  decide

/-- One chunk arrived (rather than raising). -/
def chunkOk : PyRes (List Nat) → Bool
  | PyRes.ok _ => true
  | PyRes.err _ => false

theorem write_chunks_all_ok (fs : FS) (path : String) :
    ∀ (chunks : List (PyRes (List Nat))) (buf : List Nat),
      chunks.all chunkOk = true → (write_chunks fs path buf chunks).2 = true := by
  intro chunks
  induction chunks with
  | nil => intro buf _; rfl
  | cons c rest ih =>
    intro buf hall
    simp only [List.all_cons, Bool.and_eq_true] at hall
    cases c with
    | err e => simp [chunkOk] at hall
    | ok d => exact ih (buf ++ d) hall.2

theorem hasFile_fsErase (name : String) :
    ∀ fs : FS, hasFile (fsErase fs name) name = false := by
  intro fs
  induction fs with
  | nil => rfl
  | cons p rest ih =>
    by_cases hp : p.1 = name
    · have : (p.1 != name) = false := by simp [hp]
      simp only [fsErase, List.filter_cons, this, Bool.false_eq_true, if_neg]
      exact ih
    · have hb : (p.1 != name) = true := by simp [hp]
      simp only [fsErase, List.filter_cons, hb, if_pos]
      simp only [hasFile, slookup]
      rw [if_neg hp]
      exact ih

/-- C9 (amended): for each item, when the download completes (status 200
and every body chunk arrives) the scratch file is removed by the end of
the iteration on the upload-success path and on every upload-failure path
alike (os.remove is unconditional); when the status is not 200 no scratch
file is created at all; but an exception in mid-stream body reading — the
remaining failure path — leaves the partially written file behind. -/
theorem claim9_cleanup (fs : FS) (resp : HttpResp) (filename : String)
    (upl : Option String) :
    (resp.chunks.all chunkOk = true → resp.status = 200 →
        hasFile (process_item fs resp filename upl) ("downloads/" ++ filename) = false)
      ∧ (resp.status ≠ 200 → process_item fs resp filename upl = fs) := by
  constructor
  · intro hok h200
    unfold process_item download_media
    rw [if_pos h200]
    have h2 := write_chunks_all_ok fs ("downloads/" ++ filename) resp.chunks [] hok
    rcases hw : write_chunks fs ("downloads/" ++ filename) [] resp.chunks with ⟨fs', b⟩
    rw [hw] at h2
    simp only at h2
    subst h2
    simp only [hw]
    cases upl <;> exact hasFile_fsErase _ fs'
  · intro hne
    unfold process_item download_media
    rw [if_neg hne]

def c9resp2 : HttpResp := { status := 200, chunks := [PyRes.ok [5], PyRes.ok [6]] }

def c9resp3 : HttpResp := { status := 404, chunks := [] }

/-- C9 witness: the amended theorem at a completed download with a failed
upload (the file is gone afterwards) and at a 404 response (the scratch
directory is untouched). -/
theorem claim9_witness :
    hasFile (process_item [] c9resp2 "g.jpg" none) "downloads/g.jpg" = false
      ∧ process_item [] c9resp3 "g.jpg" none = [] :=
  ⟨(claim9_cleanup [] c9resp2 "g.jpg" none).1 (by decide) (by decide),
   (claim9_cleanup [] c9resp3 "g.jpg" none).2 (by decide)⟩

/-! ### Persistence filename of the save-to-Drive loop
(src/practice.py line 373)

`f"{media_type}_{hashlib.md5(url.encode()).hexdigest()[:8]}{os.path.splitext(url)[1]}"`

hashlib.md5 is embedded as a full MD5 (RFC 1321) over the URL's UTF-8
bytes, so the produced filename is computed bit for bit. -/

/-- UTF-8 encoding of one character (str.encode()). -/
def utf8Char (c : Char) : List Nat :=
  let n := c.toNat
  if n < 128 then [n]
  else if n < 2048 then [192 + n / 64, 128 + n % 64]
  else if n < 65536 then [224 + n / 4096, 128 + (n / 64) % 64, 128 + n % 64]
  else [240 + n / 262144, 128 + (n / 4096) % 64, 128 + (n / 64) % 64, 128 + n % 64]

/-- url.encode(): the UTF-8 bytes of the string. -/
def utf8Bytes (s : String) : List Nat := (s.data.map utf8Char).flatten

/-- 2^32. -/
def m32 : Nat := 4294967296

/-- 32-bit modular addition. -/
def add32 (a b : Nat) : Nat := (a + b) % m32

/-- 32-bit complement. -/
def not32 (x : Nat) : Nat := 4294967295 ^^^ x

/-- 32-bit left rotation (for x below 2^32 and n between 1 and 31). -/
def rotl32 (x n : Nat) : Nat := ((x <<< n) % m32) ||| (x >>> (32 - n))

/-- The 64 sine-derived MD5 round constants (RFC 1321). -/
def md5K : List Nat :=
  [0xd76aa478, 0xe8c7b756, 0x242070db, 0xc1bdceee,
   0xf57c0faf, 0x4787c62a, 0xa8304613, 0xfd469501,
   0x698098d8, 0x8b44f7af, 0xffff5bb1, 0x895cd7be,
   0x6b901122, 0xfd987193, 0xa679438e, 0x49b40821,
   0xf61e2562, 0xc040b340, 0x265e5a51, 0xe9b6c7aa,
   0xd62f105d, 0x02441453, 0xd8a1e681, 0xe7d3fbc8,
   0x21e1cde6, 0xc33707d6, 0xf4d50d87, 0x455a14ed,
   0xa9e3e905, 0xfcefa3f8, 0x676f02d9, 0x8d2a4c8a,
   0xfffa3942, 0x8771f681, 0x6d9d6122, 0xfde5380c,
   0xa4beea44, 0x4bdecfa9, 0xf6bb4b60, 0xbebfbc70,
   0x289b7ec6, 0xeaa127fa, 0xd4ef3085, 0x04881d05,
   0xd9d4d039, 0xe6db99e5, 0x1fa27cf8, 0xc4ac5665,
   0xf4292244, 0x432aff97, 0xab9423a7, 0xfc93a039,
   0x655b59c3, 0x8f0ccc92, 0xffeff47d, 0x85845dd1,
   0x6fa87e4f, 0xfe2ce6e0, 0xa3014314, 0x4e0811a1,
   0xf7537e82, 0xbd3af235, 0x2ad7d2bb, 0xeb86d391]

/-- The per-round left-rotation amounts (RFC 1321). -/
def md5S : List Nat :=
  [7, 12, 17, 22, 7, 12, 17, 22, 7, 12, 17, 22, 7, 12, 17, 22,
   5, 9, 14, 20, 5, 9, 14, 20, 5, 9, 14, 20, 5, 9, 14, 20,
   4, 11, 16, 23, 4, 11, 16, 23, 4, 11, 16, 23, 4, 11, 16, 23,
   6, 10, 15, 21, 6, 10, 15, 21, 6, 10, 15, 21, 6, 10, 15, 21]

/-- The MD5 working state. -/
structure MD5St where
  a : Nat
  b : Nat
  c : Nat
  d : Nat
deriving DecidableEq

/-- One MD5 round over the 16 message words `ws`. -/
def md5Step (ws : List Nat) (st : MD5St) (i : Nat) : MD5St :=
  let f :=
    if i < 16 then (st.b &&& st.c) ||| (not32 st.b &&& st.d)
    else if i < 32 then (st.d &&& st.b) ||| (not32 st.d &&& st.c)
    else if i < 48 then st.b ^^^ st.c ^^^ st.d
    else st.c ^^^ (st.b ||| not32 st.d)
  let g :=
    if i < 16 then i
    else if i < 32 then (5 * i + 1) % 16
    else if i < 48 then (3 * i + 5) % 16
    else (7 * i) % 16
  let tmp := add32 f (add32 st.a (add32 (md5K.getD i 0) (ws.getD g 0)))
  { a := st.d, b := add32 st.b (rotl32 tmp (md5S.getD i 0)), c := st.b, d := st.c }

/-- Process one 512-bit chunk. -/
def md5Chunk (st : MD5St) (ws : List Nat) : MD5St :=
  let r := (List.range 64).foldl (md5Step ws) st
  { a := add32 st.a r.a, b := add32 st.b r.b, c := add32 st.c r.c, d := add32 st.d r.d }

/-- Group bytes into little-endian 32-bit words. -/
def toWordsLE : List Nat → List Nat
  | b0 :: b1 :: b2 :: b3 :: rest =>
    (b0 + 256 * b1 + 65536 * b2 + 16777216 * b3) :: toWordsLE rest
  | _ => []

/-- MD5 padding: a 0x80 byte, zeros to 56 mod 64, then the bit length as
eight little-endian bytes. -/
def md5Pad (msg : List Nat) : List Nat :=
  let len := msg.length
  let zeros := (119 - len % 64) % 64
  let bitLen := (8 * len) % (2 ^ 64)
  msg ++ [128] ++ List.replicate zeros 0
      ++ (List.range 8).map (fun i => (bitLen >>> (8 * i)) % 256)

/-- A 32-bit word as four little-endian bytes. -/
def wordBytesLE (w : Nat) : List Nat :=
  [w % 256, w / 256 % 256, w / 65536 % 256, w / 16777216 % 256]

/-- The 16-byte MD5 digest of a byte sequence. -/
def md5Digest (msg : List Nat) : List Nat :=
  let p := md5Pad msg
  let fin := (List.range (p.length / 64)).foldl
    (fun st i => md5Chunk st (toWordsLE ((p.drop (64 * i)).take 64)))
    { a := 0x67452301, b := 0xefcdab89, c := 0x98badcfe, d := 0x10325476 }
  wordBytesLE fin.a ++ wordBytesLE fin.b ++ wordBytesLE fin.c ++ wordBytesLE fin.d

/-- One lowercase hexadecimal digit. -/
def hexDigitCh (n : Nat) : Char :=
  if n < 10 then Char.ofNat (48 + n) else Char.ofNat (87 + n)

/-- A byte as two lowercase hex characters. -/
def byteHex (b : Nat) : List Char := [hexDigitCh (b / 16), hexDigitCh (b % 16)]

/-- hashlib.md5(s.encode()).hexdigest(). -/
def md5HexStr (s : String) : String :=
  String.mk ((md5Digest (utf8Bytes s)).map byteHex).flatten

set_option maxRecDepth 40000

example : md5HexStr "" = "d41d8cd98f00b204e9800998ecf8427e" := by decide

example : md5HexStr "abc" = "900150983cd24fb0d6963f7d28e17f72" := by decide

/-- Index of the last occurrence of a character, if any. -/
def rfindIdx (c : Char) (l : List Char) : Option Nat :=
  match l.reverse.findIdx? (fun x => x == c) with
  | none => none
  | some r => some (l.length - 1 - r)

/-- The extension part of os.path.splitext(p) for POSIX paths: the text
from the last dot onward, provided that dot lies after the last '/' and is
preceded, within the basename, by at least one non-dot character (so
leading dots of the basename never start an extension). -/
def splitext_ext (p : String) : String :=
  let l := p.data
  match rfindIdx '.' l with
  | none => ""
  | some di =>
    let fi := match rfindIdx '/' l with
      | none => 0
      | some si => si + 1
    if fi ≤ di then
      if ((l.drop fi).take (di - fi)).any (fun c => c != '.') then
        String.mk (l.drop di)
      else ""
    else ""

example : splitext_ext "https://a.com/x.jpg" = ".jpg" := by decide

example : splitext_ext "https://a.com/archive" = "" := by decide

example : splitext_ext "/dir.d/name" = "" := by decide

example : splitext_ext "/a/.bashrc" = "" := by decide

/-- The filename built by the save-to-Drive loop for one item
(src/practice.py line 373).  It takes no sequence index: only the media
kind and the URL determine it. -/
def code_filename (media_type url : String) : String :=
  media_type ++ "_" ++ String.mk ((md5HexStr url).data.take 8) ++ splitext_ext url

/-- C8 counterexample: for the item of kind "image" with URL
https://a.com/x.jpg at sequence position 0, the claim's convention gives
"image_0.jpg", but the pipeline produces "image_dbcab8ab.jpg" — the middle
part is the first 8 hex digits of the URL's MD5, not the index. -/
theorem claim8_counterexample :
    code_filename "image" "https://a.com/x.jpg" = "image_dbcab8ab.jpg"
      ∧ code_filename "image" "https://a.com/x.jpg" ≠ "image_0.jpg" := by
  constructor
  · decide
  · decide

/-- Is the character a lowercase hexadecimal digit? -/
def isHexCh (c : Char) : Bool :=
  ('0' ≤ c && c ≤ '9') || ('a' ≤ c && c ≤ 'f')

theorem hexDigitCh_hex : ∀ n, n < 16 → isHexCh (hexDigitCh n) = true := by decide

theorem byteHex_hex (b : Nat) (hb : b < 256) : (byteHex b).all isHexCh = true := by
  unfold byteHex
  simp only [List.all_cons, List.all_nil, Bool.and_eq_true, Bool.and_true]
  constructor
  · exact hexDigitCh_hex _ ((Nat.div_lt_iff_lt_mul (by decide)).mpr hb)
  · exact hexDigitCh_hex _ (Nat.mod_lt _ (by decide))

theorem wordBytesLE_lt (w : Nat) : ∀ b ∈ wordBytesLE w, b < 256 := by
  intro b hb
  simp only [wordBytesLE, List.mem_cons, List.not_mem_nil, or_false] at hb
  rcases hb with h | h | h | h <;> subst h <;> exact Nat.mod_lt _ (by decide)

theorem md5Digest_bytes_lt (msg : List Nat) : ∀ b ∈ md5Digest msg, b < 256 := by
  intro b hb
  unfold md5Digest at hb
  simp only [List.mem_append] at hb
  rcases hb with ((h | h) | h) | h <;> exact wordBytesLE_lt _ b h

theorem md5Digest_length (msg : List Nat) : (md5Digest msg).length = 16 := by
  unfold md5Digest
  simp [wordBytesLE]

theorem mapFlatten_hex : ∀ l : List Nat, (∀ b ∈ l, b < 256) →
    ((l.map byteHex).flatten.all isHexCh) = true := by
  intro l
  induction l with
  | nil => intro _; rfl
  | cons b rest ih =>
    intro h
    simp only [List.map_cons, List.flatten_cons, List.all_append, Bool.and_eq_true]
    exact ⟨byteHex_hex b (h b (List.mem_cons_self b rest)),
           ih (fun x hx => h x (List.mem_cons_of_mem _ hx))⟩

theorem mapFlatten_len : ∀ l : List Nat, ((l.map byteHex).flatten).length = 2 * l.length := by
  intro l
  induction l with
  | nil => rfl
  | cons b rest ih =>
    simp only [List.map_cons, List.flatten_cons, List.length_append, ih, byteHex,
      List.length_cons, List.length_nil, List.length_map]
    omega

theorem md5HexStr_length (s : String) : (md5HexStr s).data.length = 32 := by
  unfold md5HexStr
  rw [show (String.mk ((md5Digest (utf8Bytes s)).map byteHex).flatten).data
        = ((md5Digest (utf8Bytes s)).map byteHex).flatten from rfl]
  rw [mapFlatten_len, md5Digest_length]

theorem md5HexStr_hex (s : String) : (md5HexStr s).data.all isHexCh = true :=
  mapFlatten_hex _ (md5Digest_bytes_lt _)

/-- C8 (amended): the filename the save-to-Drive loop produces for an item
is kind, underscore, the first 8 characters of the hex MD5 digest of the
URL, then the URL's splitext extension — the hash prefix is always exactly
8 lowercase hexadecimal characters, and the item's sequence index plays no
part in the name. -/
theorem claim8_filename_md5 (media_type url : String) :
    code_filename media_type url
        = media_type ++ "_" ++ String.mk ((md5HexStr url).data.take 8)
            ++ splitext_ext url
      ∧ ((md5HexStr url).data.take 8).length = 8
      ∧ ((md5HexStr url).data.take 8).all isHexCh = true := by
  refine ⟨rfl, ?_, ?_⟩
  · rw [List.length_take, md5HexStr_length]
    decide
  · have h := md5HexStr_hex url
    rw [List.all_eq_true] at h ⊢
    intro x hx
    exact h x (List.mem_of_mem_take hx)

end Scrape
